import Mathlib

/-!
Shallow embedding of the rpmsg OMX connection driver
(`drivers/rpmsg/rpmsg_omx.c`): per-connection state machine, inbound
frame queue, message dispatch callback, connect / read / write / poll
file operations, open, ioctl connect, and the dma-buf pin registry.

Machine integers are modelled as `Int` (error codes are returned as
negative errno values, exactly as the C code does) and `Nat` (lengths,
addresses, bit masks).  Concurrent interference (the dispatcher callback
and the crash path running between a function's lock sections) is made
explicit: each blocking operation takes the connection states it
observes at its successive lock acquisitions as parameters.
-/

/-- Linux errno values used by the driver (returned negated). -/
def enxio : Int := 6

def eio : Int := 5

def eagain : Int := 11

def enomem : Int := 12

def efault : Int := 14

def ebusy : Int := 16

def einval : Int := 22

def eisconn : Int := 106

def enotconn : Int := 107

def etimedout : Int := 110

def erestartsys : Int := 512

/-- Connection states: `OMX_UNCONNECTED`, `OMX_CONNECTED`, `OMX_FAIL`. -/
inductive OmxState
  | unconnected
  | connected
  | fail
deriving DecidableEq, Repr

/-- The per-connection data of `struct rpmssg_omx_instance` relevant to the
protocol: the state field, the inbound skb queue (each frame is its payload
byte list), and the remote destination address `dst`. -/
structure Conn where
  state : OmxState
  queue : List (List Nat)
  dst : Nat
deriving DecidableEq, Repr

/-- `sizeof(struct omx_msg_hdr)`: type, flags and len fields, 4 bytes each. -/
def omxHdrSize : Nat := 12

/-- `sizeof(struct omx_conn_rsp)`: a 32-bit status and a 32-bit address. -/
def omxConnRspSize : Nat := 8

/-- The length guard at the top of `rpmsg_omx_cb`: a message is dropped as
truncated when `len < sizeof(*hdr) || hdr->len < len - sizeof(*hdr)`, so it
is accepted exactly when `omxHdrSize ≤ len` and `len - omxHdrSize ≤ hlen`. -/
def cbAccept (len hlen : Nat) : Bool :=
  decide (omxHdrSize ≤ len) && decide (len - omxHdrSize ≤ hlen)

/-- The decoded body of an inbound message, by `hdr->type`. -/
inductive CbMsg
  | connRsp (status : Int) (addr : Nat)
  | rawMsg (payload : List Nat)
  | unknown
deriving DecidableEq, Repr

/-- `rpmsg_omx_cb`: the dispatcher callback, acting on the connection that
owns the destination endpoint.  `len` is the received byte count, `hlen` is
the header's declared payload length `hdr->len`.  A `connRsp` with
`hlen < sizeof(rsp)` is dropped; otherwise `dst` is recorded always and the
state is updated: error status forces `fail`, success status sets
`connected` unless the state is already `fail`.  A `rawMsg` is appended to
the inbound queue.  Unknown types are dropped. -/
def rpmsg_omx_cb (c : Conn) (len hlen : Nat) (m : CbMsg) : Conn :=
  if ¬ cbAccept len hlen then c
  else
    match m with
    | .connRsp status addr =>
        if hlen < omxConnRspSize then c
        else
          { c with
            dst := addr,
            state :=
              if status ≠ 0 then .fail
              else if c.state ≠ .fail then .connected
              else c.state }
    | .rawMsg p => { c with queue := c.queue ++ [p] }
    | .unknown => c

/-- An event acting on one connection: an inbound message delivered to the
dispatcher callback, or the crash path of `rpmsg_omx_remove` (which sets
`omx->state = OMX_FAIL` on every live instance). -/
inductive Event
  | msg (len hlen : Nat) (m : CbMsg)
  | crash
deriving DecidableEq, Repr

/-- One step of the connection under an event. -/
def step (c : Conn) (e : Event) : Conn :=
  match e with
  | .msg len hlen m => rpmsg_omx_cb c len hlen m
  | .crash => { c with state := .fail }

/-- Result of a `read` file operation. -/
inductive ReadRes
  | err (e : Int)
  | data (bytes : List Nat)
deriving DecidableEq, Repr

/-- Outcome of the blocking wait in `read`: either the interruptible wait
was broken by a signal, or the waiter woke and re-acquired the lock,
observing the connection as the dispatcher / crash path left it. -/
inductive Wake
  | interrupted
  | woken (c : Conn)
deriving DecidableEq, Repr

/-- Lines 609-629 of `rpmsg_omx_read`: the code after the (re-)acquired
lock — the `OMX_FAIL` check comes first, then `skb_dequeue`, a null skb
yields `-EIO`, and a frame is copied truncated to the caller's `len`. -/
def readTail (c : Conn) (len : Nat) : ReadRes × Conn :=
  if c.state = .fail then (.err (-enxio), c)
  else
    match c.queue with
    | [] => (.err (-eio), c)
    | p :: rest => (.data (p.take len), { c with queue := rest })

/-- `rpmsg_omx_read`: rejects when never connected; with an empty queue a
non-blocking caller gets `-EAGAIN` and a blocking caller waits (the wait is
interruptible, yielding `-ERESTARTSYS`); in every other case the post-lock
tail code runs. -/
def rpmsg_omx_read (c : Conn) (nonblock : Bool) (len : Nat) (wake : Wake) :
    ReadRes × Conn :=
  if c.state = .unconnected then (.err (-enotconn), c)
  else if c.queue = [] then
    if nonblock then (.err (-eagain), c)
    else
      match wake with
      | .interrupted => (.err (-erestartsys), c)
      | .woken c2 => readTail c2 len
  else readTail c len

/-- Poll bit masks (`POLLIN`, `POLLRDNORM`, `POLLOUT`, `POLLWRNORM`,
`POLLERR`). -/
def pollIn : Nat := 1

def pollRdnorm : Nat := 64

def pollOut : Nat := 4

def pollWrnorm : Nat := 256

def pollErr : Nat := 8

/-- `rpmsg_omx_poll`: readable when the queue is non-empty, always
writable, and the whole mask is overwritten with `POLLERR` when the state
is `OMX_FAIL`. -/
def rpmsg_omx_poll (c : Conn) : Nat :=
  let m := if c.queue ≠ [] then pollIn ||| pollRdnorm else 0
  let m2 := m ||| (pollOut ||| pollWrnorm)
  if c.state = .fail then pollErr else m2

/-- Whether the connect path invoked `rpmsg_send_offchannel`, and with
which service-name payload. -/
inductive SendTrace
  | none
  | sent (name : List Nat)
deriving DecidableEq, Repr

/-- Environment of one `rpmsg_omx_connect` call: the connection as it is
observed when the lock is taken for the send (`connAtSend`) and after the
completion wait (`connAtWake`) — the dispatcher callback or the crash path
may have run in between — the result of `rpmsg_send_offchannel`
(`0` or a negative errno) and of
`wait_for_completion_interruptible_timeout` (positive on completion, `0`
on timeout, negative when interrupted). -/
structure ConnectEnv where
  connAtSend : Conn
  sendRet : Int
  connAtWake : Conn
  waitRet : Int
deriving Repr

/-- `rpmsg_omx_connect`: fails `-EISCONN` when already connected (no frame
is built or sent and the connection is untouched); otherwise sends the
connect request unless the state has become `OMX_FAIL` under the lock
(`-ENXIO`), propagates a send failure, then waits up to 5 seconds and
resolves the result under the lock: `OMX_FAIL` yields `-ENXIO`, a state
still `OMX_UNCONNECTED` yields the wait's own error if any and `-ETIMEDOUT`
otherwise, and any other state returns the wait result. -/
def rpmsg_omx_connect (c : Conn) (name : List Nat) (env : ConnectEnv) :
    Int × SendTrace × Conn :=
  if c.state = .connected then (-eisconn, .none, c)
  else
    if env.connAtSend.state = .fail then (-enxio, .none, env.connAtSend)
    else if env.sendRet ≠ 0 then (env.sendRet, .sent name, env.connAtSend)
    else
      let r :=
        if env.connAtWake.state = .fail then -enxio
        else if env.connAtWake.state = .unconnected then
          if env.waitRet ≠ 0 then env.waitRet else -etimedout
        else env.waitRet
      (r, .sent name, env.connAtWake)

/-- Size of the ioctl stack buffer `char buf[48]`. -/
def ioctlBufSize : Nat := 48

/-- The service name actually passed to `rpmsg_omx_connect` by
`OMX_IOCCONNECT`: the first 48 user bytes with `buf[47]` forced to the nul
terminator, read as a C string. -/
def ioctlConnectName (userBytes : List Nat) : List Nat :=
  ((userBytes.take ioctlBufSize).set (ioctlBufSize - 1) 0).takeWhile
    (fun b => b ≠ 0)

/-- The `OMX_IOCCONNECT` case of `rpmsg_omx_ioctl`: copy 48 bytes from
user space (`-EFAULT` on failure), force nul termination, and call
`rpmsg_omx_connect`. -/
def rpmsg_omx_ioctl_connect (c : Conn) (userBytes : List Nat)
    (copyOk : Bool) (env : ConnectEnv) : Int × SendTrace × Conn :=
  if ¬ copyOk then (-efault, .none, c)
  else rpmsg_omx_connect c (ioctlConnectName userBytes) env

/-- `rpmsg_omx_open`, as a function of its environment: the instance
allocation outcome, whether `omxserv->rpdev` is bound, the caller's
`O_NONBLOCK` flag, the result of the interruptible wait for link
readiness, and the endpoint creation outcome.  Returns `0` on success or
a negative errno.  With no rpdev and `O_NONBLOCK`, the code returns
`-EBUSY`. -/
def rpmsg_omx_open (allocOk : Bool) (rpdevPresent : Bool) (nonblock : Bool)
    (waitRet : Int) (eptOk : Bool) : Int :=
  if ¬ allocOk then -enomem
  else if ¬ rpdevPresent ∧ nonblock then -ebusy
  else if ¬ rpdevPresent ∧ waitRet ≠ 0 then waitRet
  else if ¬ eptOk then -enomem
  else 0

/-- Outcomes of the successive `_rpmsg_omx_buffer_get` calls made by the
map loop: `trans i` is the result of translating the `i`-th embedded
handle (`.ok` on success, `.error` with a negative errno on failure). -/
def TransOracle : Type := Nat → Except Int Unit

/-- The `while (maptype--)` loop of `_rpmsg_omx_map_buf`: translate `n`
embedded handles starting at index `i`, stopping at the first failure. -/
def mapBufLoop (trans : TransOracle) : Nat → Nat → Except Int Unit
  | _, 0 => .ok ()
  | i, n + 1 =>
      match trans i with
      | .error e => .error e
      | .ok _ => mapBufLoop trans (i + 1) n

/-- `_rpmsg_omx_map_buf`: the embedded-handle count `maptype` read from
the payload must lie in `0..3` (`-EINVAL` otherwise), then each of the
`maptype` handles is translated in place, aborting on the first failure. -/
def rpmsg_omx_map_buf (maptype : Int) (trans : TransOracle) :
    Except Int Unit :=
  if maptype < 0 ∨ maptype > 3 then .error (-einval)
  else mapBufLoop trans 0 maptype.toNat

/-- Size of the write path's stack buffer `char kbuf[512]`. -/
def kbufSize : Nat := 512

/-- Environment of one `rpmsg_omx_write` call: whether `copy_from_user`
succeeded, the embedded-handle count and translation outcomes seen by the
map step, the connection as observed under the lock taken for the send,
and the `rpmsg_send_offchannel` result. -/
structure WriteEnv where
  copyOk : Bool
  maptype : Int
  trans : TransOracle
  connAtSend : Conn
  sendRet : Int

/-- `rpmsg_omx_write`: rejects when never connected, truncates the payload
to the 512-byte frame cap minus the header, copies it (`-EFAULT` on
failure), rewrites embedded handles — aborting with the map error before
any send — and finally sends unless the state has become `OMX_FAIL`
(`-ENXIO`).  The second component records whether a send was attempted. -/
def rpmsg_omx_write (c : Conn) (payload : List Nat) (env : WriteEnv) :
    Int × Bool :=
  if c.state = .unconnected then (-enotconn, false)
  else
    let use : Nat := min (kbufSize - omxHdrSize) payload.length
    if ¬ env.copyOk then (-efault, false)
    else
      match rpmsg_omx_map_buf env.maptype env.trans with
      | .error e => (e, false)
      | .ok _ =>
          if env.connAtSend.state = .fail then (-enxio, false)
          else if env.sendRet ≠ 0 then (env.sendRet, true)
          else ((use : Int), true)

/-- Side effects on the pinned buffer's resources, in program order:
acquiring / releasing the dma-buf reference (`dma_buf_get` /
`dma_buf_put`), the attachment (`dma_buf_attach` / `dma_buf_detach`) and
the mapping (`dma_buf_map_attachment` / `dma_buf_unmap_attachment`). -/
inductive ResEv
  | accRef
  | accAttach
  | accMap
  | relMap
  | relAttach
  | relRef
deriving DecidableEq, Repr

/-- The resources acquired by a trace, in order (0 = reference,
1 = attachment, 2 = mapping). -/
def accList (evs : List ResEv) : List Nat :=
  evs.filterMap fun e =>
    match e with
    | .accRef => some 0
    | .accAttach => some 1
    | .accMap => some 2
    | _ => Option.none

/-- The resources released by a trace, in order. -/
def relList (evs : List ResEv) : List Nat :=
  evs.filterMap fun e =>
    match e with
    | .relRef => some 0
    | .relAttach => some 1
    | .relMap => some 2
    | _ => Option.none

/-- Environment of one `rpmsg_omx_pin_buffer` call: the outcomes of the
`kmalloc`, `dma_buf_get`, `dma_buf_attach`, `dma_buf_map_attachment` and
`idr_pre_get` steps (each `.error` carries the negative errno the C code
extracts with `PTR_ERR`). -/
structure PinEnv where
  allocOk : Bool
  getRet : Except Int Unit
  attachRet : Except Int Unit
  mapRet : Except Int Unit
  preGetOk : Bool
deriving Repr

/-- `idr_get_new_above(idr, ptr, fd, &id)`: allocates the smallest free id
not below `fd`.  `occ` is the set of occupied ids; the fuel
`occ.length + 1` suffices since among `occ.length + 1` candidates one is
free. -/
def idrFirstFree (occ : List Nat) : Nat → Nat → Nat
  | 0, n => n
  | fuel + 1, n => if n ∈ occ then idrFirstFree occ fuel (n + 1) else n

/-- `rpmsg_omx_pin_buffer`: registry is the list of registered ids (the
dma idr keys).  Returns the errno result, the updated registry, and the
resource trace.  The goto-chain error paths release, in reverse order,
exactly what was acquired; a freshly won idr slot whose id differs from
`fd` is removed again and the call fails `-EINVAL`. -/
def rpmsg_omx_pin_buffer (reg : List Nat) (fd : Nat) (env : PinEnv) :
    Int × List Nat × List ResEv :=
  if ¬ env.allocOk then (-enomem, reg, [])
  else
    match env.getRet with
    | .error e => (e, reg, [])
    | .ok _ =>
        match env.attachRet with
        | .error e => (e, reg, [.accRef, .relRef])
        | .ok _ =>
            match env.mapRet with
            | .error e => (e, reg, [.accRef, .accAttach, .relAttach, .relRef])
            | .ok _ =>
                if ¬ env.preGetOk then
                  (-enomem, reg,
                    [.accRef, .accAttach, .accMap, .relMap, .relAttach,
                      .relRef])
                else
                  let id := idrFirstFree reg (reg.length + 1) fd
                  if fd ≠ id then
                    (-einval, (id :: reg).erase id,
                      [.accRef, .accAttach, .accMap, .relMap, .relAttach,
                        .relRef])
                  else (0, id :: reg, [.accRef, .accAttach, .accMap])

/-- `idr_get_new_above` never returns an id below its starting point. -/
theorem idrFirstFree_ge (occ : List Nat) :
    ∀ (fuel n : Nat), n ≤ idrFirstFree occ fuel n := by
  intro fuel
  induction fuel with
  | zero => intro n; simp [idrFirstFree]
  | succ k ih =>
      intro n
      simp only [idrFirstFree]
      split
      · exact Nat.le_trans (Nat.le_succ n) (ih (n + 1))
      · exact Nat.le_refl n

/-- When the requested id is already occupied, `idr_get_new_above` hands
back a different (strictly larger) id. -/
theorem idrFirstFree_ne_of_mem (occ : List Nat) (fd : Nat) (h : fd ∈ occ) :
    idrFirstFree occ (occ.length + 1) fd ≠ fd := by
  simp only [idrFirstFree, if_pos h]
  have hge := idrFirstFree_ge occ occ.length (fd + 1)
  omega

/-- When the requested id is free, `idr_get_new_above` returns it. -/
theorem idrFirstFree_eq_of_not_mem (occ : List Nat) (fd : Nat)
    (h : fd ∉ occ) : idrFirstFree occ (occ.length + 1) fd = fd := by
  simp only [idrFirstFree, if_neg h]

/-- A list with a zero written at position `i` yields at most `i` elements
to `takeWhile (· ≠ 0)`. -/
theorem takeWhile_set_zero_length_le :
    ∀ (l : List Nat) (i : Nat), i < l.length →
      ((l.set i 0).takeWhile (fun b => b ≠ 0)).length ≤ i := by
  intro l
  induction l with
  | nil => intro i h; simp at h
  | cons a t ih =>
      intro i h
      cases i with
      | zero =>
          show (((0 : Nat) :: t).takeWhile (fun b => b ≠ 0)).length ≤ 0
          rw [List.takeWhile_cons]
          simp
      | succ j =>
          have hj : j < t.length := by simpa using h
          show ((a :: t.set j 0).takeWhile (fun b => b ≠ 0)).length ≤ j + 1
          by_cases ha : a = 0
          · rw [List.takeWhile_cons]
            simp [ha]
          · have h1 : ((a :: t.set j 0).takeWhile (fun b => b ≠ 0)) =
                a :: ((t.set j 0).takeWhile (fun b => b ≠ 0)) := by
              rw [List.takeWhile_cons]
              simp [ha]
            rw [h1, List.length_cons]
            exact Nat.succ_le_succ (ih j hj)

/-- Shape of a single dispatcher-callback step on the state field. -/
theorem cb_state_shape (c : Conn) (len hlen : Nat) (m : CbMsg) :
    (rpmsg_omx_cb c len hlen m).state = c.state ∨
      (c.state = .unconnected ∧ (rpmsg_omx_cb c len hlen m).state = .connected) ∨
      (rpmsg_omx_cb c len hlen m).state = .fail := by
  by_cases hacc : cbAccept len hlen
  · cases m with
    | connRsp status addr =>
        by_cases hr : hlen < omxConnRspSize
        · simp [rpmsg_omx_cb, hacc, hr]
        · by_cases hs : status = 0
          · cases hst : c.state with
            | unconnected =>
                refine Or.inr (Or.inl ⟨rfl, ?_⟩)
                simp [rpmsg_omx_cb, hacc, hr, hs, hst]
            | connected =>
                refine Or.inl ?_
                simp [rpmsg_omx_cb, hacc, hr, hs, hst]
            | fail =>
                refine Or.inr (Or.inr ?_)
                simp [rpmsg_omx_cb, hacc, hr, hs, hst]
          · refine Or.inr (Or.inr ?_)
            simp [rpmsg_omx_cb, hacc, hr, hs]
    | rawMsg p => simp [rpmsg_omx_cb, hacc]
    | unknown => simp [rpmsg_omx_cb, hacc]
  · simp [rpmsg_omx_cb, hacc]

/-- The `OMX_FAIL` state survives every event. -/
theorem step_fail_sticky (c : Conn) (e : Event) (h : c.state = .fail) :
    (step c e).state = .fail := by
  cases e with
  | crash => simp [step]
  | msg len hlen m =>
      by_cases hacc : cbAccept len hlen
      · cases m with
        | connRsp status addr =>
            by_cases hr : hlen < omxConnRspSize
            · simp [step, rpmsg_omx_cb, hacc, hr, h]
            · by_cases hs : status = 0 <;>
                simp [step, rpmsg_omx_cb, hacc, hr, hs, h]
        | rawMsg p => simp [step, rpmsg_omx_cb, hacc, h]
        | unknown => simp [step, rpmsg_omx_cb, hacc, h]
      · simp [step, rpmsg_omx_cb, hacc, h]

/-- The `OMX_FAIL` state survives every event sequence. -/
theorem foldl_fail_sticky (es : List Event) :
    ∀ c : Conn, c.state = .fail → (es.foldl step c).state = .fail := by
  induction es with
  | nil => intro c h; exact h
  | cons e t ih => intro c h; exact ih (step c e) (step_fail_sticky c e h)

/-- C1 (counterexample): a read on a `Failed` connection whose queue holds
a frame does NOT deliver that frame — the `OMX_FAIL` check at line 609
runs before `skb_dequeue` on every path, so the read returns `-ENXIO` and
the queued frame stays undelivered. -/
theorem read_failed_nonempty_counterexample :
    rpmsg_omx_read ⟨.fail, [[1, 2, 3]], 0⟩ false 3 .interrupted
        = (.err (-enxio), ⟨.fail, [[1, 2, 3]], 0⟩)
      ∧ (rpmsg_omx_read ⟨.fail, [[1, 2, 3]], 0⟩ false 3 .interrupted).1
        ≠ .data [1, 2, 3] := by
  constructor
  · rfl
  · decide

/-- C1 (amended): every read on a connection in the `Failed` state with a
non-empty inbound queue returns the `-ENXIO` disconnection error and
leaves the queue untouched; frames queued before the failure are never
drained. -/
theorem read_failed_nonempty_returns_enxio (c : Conn) (nonblock : Bool)
    (len : Nat) (wake : Wake) (hs : c.state = .fail) (hq : c.queue ≠ []) :
    rpmsg_omx_read c nonblock len wake = (.err (-enxio), c) := by
  simp [rpmsg_omx_read, readTail, hs, hq]

/-- C1 (witness). -/
theorem read_failed_nonempty_returns_enxio_witness :
    rpmsg_omx_read ⟨.fail, [[7, 8]], 5⟩ true 2 .interrupted
      = (.err (-enxio), ⟨.fail, [[7, 8]], 5⟩) :=
  read_failed_nonempty_returns_enxio _ _ _ _ rfl (by decide)

/-- C2: the state field only ever transitions `Unconnected → Connected` or
`* → Failed`, `Failed` is terminal under every event and event sequence
(in particular under a success-status connect response arriving after the
state became `Failed`), the read tail never writes the state, and the
connect path only returns the connection exactly as one of its lock-time
observations left it (it performs no state write of its own). -/
theorem omx_state_machine_invariant (c : Conn) (e : Event) :
    ((step c e).state = c.state ∨
      (c.state = .unconnected ∧ (step c e).state = .connected) ∨
      (step c e).state = .fail)
    ∧ (c.state = .fail → (step c e).state = .fail)
    ∧ (∀ es : List Event, c.state = .fail → (es.foldl step c).state = .fail)
    ∧ (∀ len : Nat, (readTail c len).2.state = c.state)
    ∧ (∀ (name : List Nat) (env : ConnectEnv),
        (rpmsg_omx_connect c name env).2.2 = c ∨
        (rpmsg_omx_connect c name env).2.2 = env.connAtSend ∨
        (rpmsg_omx_connect c name env).2.2 = env.connAtWake) := by
  refine ⟨?_, step_fail_sticky c e, fun es => foldl_fail_sticky es c, ?_, ?_⟩
  · cases e with
    | crash => exact Or.inr (Or.inr rfl)
    | msg len hlen m => exact cb_state_shape c len hlen m
  · intro len
    unfold readTail
    split
    · rfl
    · cases hq : c.queue with
      | nil => simp [hq]
      | cons p rest => simp [hq]
  · intro name env
    unfold rpmsg_omx_connect
    split
    · exact Or.inl rfl
    · split
      · exact Or.inr (Or.inl rfl)
      · split
        · exact Or.inr (Or.inl rfl)
        · exact Or.inr (Or.inr rfl)

/-- C2 (witness): a success-status connect response after a crash, then a
further message and crash, never leave `Failed`. -/
theorem omx_state_machine_invariant_witness :
    (step ⟨.fail, [], 0⟩ (.msg 20 8 (.connRsp 0 9))).state = .fail ∧
      (([Event.msg 20 8 (.connRsp 0 9), Event.crash].foldl step
          ⟨.fail, [], 0⟩).state = .fail) :=
  ⟨(omx_state_machine_invariant ⟨.fail, [], 0⟩ (.msg 20 8 (.connRsp 0 9))).2.1
      rfl,
    (omx_state_machine_invariant ⟨.fail, [], 0⟩
        (.msg 20 8 (.connRsp 0 9))).2.2.1
      [Event.msg 20 8 (.connRsp 0 9), Event.crash] rfl⟩

/-- C3: the truncation guard in `rpmsg_omx_cb` is inverted — it accepts a
frame whose declared payload length (100) exceeds the actually received
payload (16 received bytes minus the 12-byte header = 4 bytes) and
enqueues it after a `memcpy` of `hdr->len` bytes, an out-of-bounds read;
the claim `hdr->len ≤ len - sizeof(hdr)` fails on this accepted frame. -/
theorem cb_accepts_overdeclared_length :
    cbAccept 16 100 = true
    ∧ rpmsg_omx_cb ⟨.connected, [], 0⟩ 16 100 (.rawMsg [1, 2, 3, 4])
        = ⟨.connected, [[1, 2, 3, 4]], 0⟩
    ∧ ¬ (100 ≤ 16 - omxHdrSize)
    ∧ cbAccept 16 2 = false := by
  refine ⟨by decide, by decide, by decide, by decide⟩

/-- C4 (counterexample): an open with `O_NONBLOCK` while no rpdev is bound
returns `-EBUSY`, which is not the `-EAGAIN` would-block error the claim
states. -/
theorem open_nonblock_no_link_counterexample :
    rpmsg_omx_open true false true 0 true = -ebusy
      ∧ -ebusy ≠ -eagain := by
  refine ⟨rfl, by decide⟩

/-- C4 (amended): an open with `O_NONBLOCK` while no transport link is
bound (and whose instance allocation succeeded) fails immediately with
`-EBUSY`. -/
theorem open_nonblock_no_link_ebusy (waitRet : Int) (eptOk : Bool) :
    rpmsg_omx_open true false true waitRet eptOk = -ebusy := by
  simp [rpmsg_omx_open]

/-- C5 (counterexample): a 48-byte service name with no terminator is not
rejected — `OMX_IOCCONNECT` forces `buf[47] = 0` and the connect proceeds,
sending a frame whose name is the silently truncated 47-byte prefix. -/
theorem ioctl_connect_no_reject_counterexample :
    rpmsg_omx_ioctl_connect ⟨.unconnected, [], 0⟩ (List.replicate 48 65) true
        ⟨⟨.unconnected, [], 0⟩, 0, ⟨.connected, [], 7⟩, 1⟩
      = (1, .sent (List.replicate 47 65), ⟨.connected, [], 7⟩)
    ∧ (0 : Int) < 1
    ∧ (List.replicate 47 65 : List Nat) ≠ List.replicate 48 65 := by
  refine ⟨rfl, by decide, by decide⟩

/-- C5 (amended): a connect control operation never rejects a too-long
name; it forces a nul terminator onto the last byte of the 48-byte buffer
and proceeds with the (at most 47-byte) truncated name. -/
theorem ioctl_connect_truncates (c : Conn) (u : List Nat) (env : ConnectEnv)
    (h : u.length = ioctlBufSize) :
    rpmsg_omx_ioctl_connect c u true env
        = rpmsg_omx_connect c (ioctlConnectName u) env
      ∧ (ioctlConnectName u).length ≤ ioctlBufSize - 1 := by
  constructor
  · simp [rpmsg_omx_ioctl_connect]
  · unfold ioctlConnectName
    apply takeWhile_set_zero_length_le
    simp [List.length_take, h, ioctlBufSize]

/-- C5 (witness). -/
theorem ioctl_connect_truncates_witness :
    rpmsg_omx_ioctl_connect ⟨.unconnected, [], 0⟩ (List.replicate 48 66) true
        ⟨⟨.unconnected, [], 0⟩, 0, ⟨.unconnected, [], 0⟩, 0⟩
      = rpmsg_omx_connect ⟨.unconnected, [], 0⟩
          (ioctlConnectName (List.replicate 48 66))
          ⟨⟨.unconnected, [], 0⟩, 0, ⟨.unconnected, [], 0⟩, 0⟩
    ∧ (ioctlConnectName (List.replicate 48 66)).length ≤ ioctlBufSize - 1 :=
  ioctl_connect_truncates _ _ _ (by decide)

/-- C6: a connect on an already-connected instance fails `-EISCONN` at
once — no frame is sent and the connection (state, queue, dst) is returned
untouched. -/
theorem connect_already_connected (c : Conn) (name : List Nat)
    (env : ConnectEnv) (h : c.state = .connected) :
    rpmsg_omx_connect c name env = (-eisconn, .none, c) := by
  simp [rpmsg_omx_connect, h]

/-- C6 (witness). -/
theorem connect_already_connected_witness :
    rpmsg_omx_connect ⟨.connected, [[9]], 4⟩ [65, 66]
        ⟨⟨.connected, [[9]], 4⟩, 0, ⟨.connected, [[9]], 4⟩, 1⟩
      = (-eisconn, .none, ⟨.connected, [[9]], 4⟩) :=
  connect_already_connected _ _ _ rfl

/-- C7: after a successful send, a connect whose wait times out (result 0)
with the state still `Unconnected` returns `-ETIMEDOUT` and leaves the
state `Unconnected`; if instead the state is `Failed` at wake time the
result is `-ENXIO` — never `-ETIMEDOUT`, never success. -/
theorem connect_timeout_vs_crash (c : Conn) (name : List Nat)
    (env : ConnectEnv) (hc : c.state = .unconnected)
    (hs : env.connAtSend.state ≠ .fail) (hr : env.sendRet = 0) :
    (env.waitRet = 0 → env.connAtWake.state = .unconnected →
      (rpmsg_omx_connect c name env).1 = -etimedout ∧
        (rpmsg_omx_connect c name env).2.2.state = .unconnected)
    ∧ (env.connAtWake.state = .fail →
        (rpmsg_omx_connect c name env).1 = -enxio ∧
          (rpmsg_omx_connect c name env).1 ≠ -etimedout ∧
          (rpmsg_omx_connect c name env).1 ≠ 0) := by
  constructor
  · intro hw hwc
    constructor
    · simp [rpmsg_omx_connect, hc, hs, hr, hw, hwc]
    · simp [rpmsg_omx_connect, hc, hs, hr, hw, hwc]
  · intro hwc
    refine ⟨?_, ?_, ?_⟩ <;> simp [rpmsg_omx_connect, hc, hs, hr, hwc] <;>
      decide

/-- C7 (witness). -/
theorem connect_timeout_vs_crash_witness :
    (rpmsg_omx_connect ⟨.unconnected, [], 0⟩ [115, 118, 99]
        ⟨⟨.unconnected, [], 0⟩, 0, ⟨.unconnected, [], 0⟩, 0⟩).1
      = -etimedout :=
  ((connect_timeout_vs_crash _ _ _ rfl (by decide) rfl).1 rfl rfl).1

/-- C8: on a connected instance, a payload whose embedded-handle count is
outside 0..3 makes the write return `-EINVAL` with no send attempted, and
any failure of the handle-translation step makes the write return that
error with no send attempted. -/
theorem write_map_failure_aborts (c : Conn) (payload : List Nat)
    (env : WriteEnv) (hc : c.state ≠ .unconnected)
    (hcopy : env.copyOk = true) :
    ((env.maptype < 0 ∨ env.maptype > 3) →
      rpmsg_omx_write c payload env = (-einval, false))
    ∧ (∀ e : Int, rpmsg_omx_map_buf env.maptype env.trans = .error e →
        rpmsg_omx_write c payload env = (e, false)) := by
  constructor
  · intro hm
    have hmap : rpmsg_omx_map_buf env.maptype env.trans = .error (-einval) := by
      unfold rpmsg_omx_map_buf
      rw [if_pos hm]
    simp [rpmsg_omx_write, hc, hcopy, hmap]
  · intro e he
    simp [rpmsg_omx_write, hc, hcopy, he]

/-- C8 (witness): handle count 5 aborts the write with `-EINVAL`. -/
theorem write_map_failure_aborts_witness :
    rpmsg_omx_write ⟨.connected, [], 3⟩ [0, 0]
        ⟨true, 5, fun _ => .ok (), ⟨.connected, [], 3⟩, 0⟩
      = (-einval, false) :=
  (write_map_failure_aborts _ _ _ (by decide) rfl).1 (Or.inr (by decide))

/-- C9: a pin of an fd already registered never succeeds (its result is a
nonzero error), every failing pin leaves the registry exactly as it was
and releases, in reverse acquisition order, exactly the resources it
acquired, and a successful pin registers exactly the requested fd (which
was therefore free).  The hypotheses state that the `PTR_ERR` values of
failing external acquisitions are negative, as the kernel guarantees. -/
theorem pin_rejects_duplicate_and_unwinds (reg : List Nat) (fd : Nat)
    (env : PinEnv)
    (hg : ∀ e : Int, env.getRet = .error e → e < 0)
    (ha : ∀ e : Int, env.attachRet = .error e → e < 0)
    (hm : ∀ e : Int, env.mapRet = .error e → e < 0) :
    (fd ∈ reg → (rpmsg_omx_pin_buffer reg fd env).1 ≠ 0)
    ∧ ((rpmsg_omx_pin_buffer reg fd env).1 ≠ 0 →
        (rpmsg_omx_pin_buffer reg fd env).2.1 = reg ∧
          relList (rpmsg_omx_pin_buffer reg fd env).2.2 =
            (accList (rpmsg_omx_pin_buffer reg fd env).2.2).reverse)
    ∧ ((rpmsg_omx_pin_buffer reg fd env).1 = 0 →
        fd ∉ reg ∧ (rpmsg_omx_pin_buffer reg fd env).2.1 = fd :: reg) := by
  obtain ⟨alloc, getr, attr, mapr, pre⟩ := env
  cases alloc with
  | false =>
      refine ⟨fun _ => ?_, fun _ => ⟨rfl, rfl⟩, fun h0 => absurd h0 ?_⟩ <;>
        simp [rpmsg_omx_pin_buffer] <;> decide
  | true =>
      cases getr with
      | error e =>
          have he : e < 0 := hg e rfl
          refine ⟨fun _ => ?_, fun _ => ⟨rfl, rfl⟩, fun h0 => ?_⟩
          · simp [rpmsg_omx_pin_buffer]; omega
          · simp [rpmsg_omx_pin_buffer] at h0; omega
      | ok u =>
          cases attr with
          | error e =>
              have he : e < 0 := ha e rfl
              refine ⟨fun _ => ?_, fun _ => ⟨rfl, rfl⟩, fun h0 => ?_⟩
              · simp [rpmsg_omx_pin_buffer]; omega
              · simp [rpmsg_omx_pin_buffer] at h0; omega
          | ok v =>
              cases mapr with
              | error e =>
                  have he : e < 0 := hm e rfl
                  refine ⟨fun _ => ?_, fun _ => ⟨rfl, rfl⟩, fun h0 => ?_⟩
                  · simp [rpmsg_omx_pin_buffer]; omega
                  · simp [rpmsg_omx_pin_buffer] at h0; omega
              | ok w =>
                  cases pre with
                  | false =>
                      refine ⟨fun _ => ?_, fun _ => ⟨rfl, rfl⟩,
                          fun h0 => absurd h0 ?_⟩ <;>
                        simp [rpmsg_omx_pin_buffer] <;> decide
                  | true =>
                      by_cases hmem : fd ∈ reg
                      · have hne :=
                          idrFirstFree_ne_of_mem reg fd hmem
                        refine ⟨fun _ => ?_, fun _ => ⟨?_, ?_⟩,
                            fun h0 => ?_⟩
                        · simp [rpmsg_omx_pin_buffer, hne.symm]
                          decide
                        · simp [rpmsg_omx_pin_buffer, hne.symm,
                            List.erase_cons_head]
                        · simp [rpmsg_omx_pin_buffer, hne.symm]
                          decide
                        · refine absurd h0 ?_
                          simp [rpmsg_omx_pin_buffer, hne.symm]
                          decide
                      · have heq :=
                          idrFirstFree_eq_of_not_mem reg fd hmem
                        refine ⟨fun h => absurd h hmem, fun h0 => ?_,
                            fun _ => ⟨hmem, ?_⟩⟩
                        · exact absurd (by simp [rpmsg_omx_pin_buffer, heq])
                            h0
                        · simp [rpmsg_omx_pin_buffer, heq]

/-- C9 (witness): pinning fd 5 when 5 is already registered fails with a
nonzero error, leaves the registry unchanged, and releases the reference,
attachment and mapping in reverse order. -/
theorem pin_rejects_duplicate_witness :
    (rpmsg_omx_pin_buffer [5] 5 ⟨true, .ok (), .ok (), .ok (), true⟩).1 ≠ 0
    ∧ (rpmsg_omx_pin_buffer [5] 5 ⟨true, .ok (), .ok (), .ok (), true⟩).2.1
        = [5]
    ∧ relList
          (rpmsg_omx_pin_buffer [5] 5 ⟨true, .ok (), .ok (), .ok (), true⟩).2.2
        = (accList
            (rpmsg_omx_pin_buffer [5] 5
              ⟨true, .ok (), .ok (), .ok (), true⟩).2.2).reverse := by
  have h := pin_rejects_duplicate_and_unwinds [5] 5
    ⟨true, .ok (), .ok (), .ok (), true⟩
    (fun e he => by simp at he) (fun e he => by simp at he)
    (fun e he => by simp at he)
  have h1 := h.1 (by decide)
  exact ⟨h1, (h.2.1 h1).1, (h.2.1 h1).2⟩

/-- C10: the readiness query reports readable (`POLLIN | POLLRDNORM`)
exactly when the inbound queue is non-empty, always reports writable
(`POLLOUT | POLLWRNORM`), and once the state is `Failed` the returned mask
is exactly `POLLERR`, with the readable and writable bits suppressed. -/
theorem poll_readiness (c : Conn) :
    (c.state = .fail → rpmsg_omx_poll c = pollErr
        ∧ rpmsg_omx_poll c &&& pollIn = 0
        ∧ rpmsg_omx_poll c &&& pollOut = 0)
    ∧ (c.state ≠ .fail →
        ((rpmsg_omx_poll c &&& pollIn ≠ 0) ↔ c.queue ≠ [])
        ∧ ((rpmsg_omx_poll c &&& pollRdnorm ≠ 0) ↔ c.queue ≠ [])
        ∧ rpmsg_omx_poll c &&& pollOut ≠ 0
        ∧ rpmsg_omx_poll c &&& pollWrnorm ≠ 0
        ∧ rpmsg_omx_poll c &&& pollErr = 0) := by
  obtain ⟨st, q, d⟩ := c
  cases st <;> rcases q with _ | ⟨p, rest⟩ <;>
    simp [rpmsg_omx_poll, pollIn, pollRdnorm, pollOut, pollWrnorm,
      pollErr] <;> decide

/-- C10 (witness). -/
theorem poll_readiness_witness :
    rpmsg_omx_poll ⟨.fail, [[1]], 0⟩ = pollErr
      ∧ rpmsg_omx_poll ⟨.connected, [[1]], 0⟩ &&& pollOut ≠ 0 :=
  ⟨((poll_readiness ⟨.fail, [[1]], 0⟩).1 rfl).1,
    ((poll_readiness ⟨.connected, [[1]], 0⟩).2 (by decide)).2.2.1⟩
